import Mathlib

/-!
Shallow embedding of `src/dotenv/mod.ts` (a `.env` configuration-file loader).

Strings are modelled as `List Char`.  JavaScript objects used as string maps
(`DotenvConfig`, `Deno.env.toObject()`) are modelled as association lists with
insertion-order semantics: assignment (`obj[k] = v`) updates the first entry
with that key or appends a fresh entry, `key in obj` / `Deno.env.get` is
first-entry lookup.

The two regular expressions `RE_VariableStart` and `RE_KeyValue` are embedded
via a small backtracking regex engine (`reMatch`) that reproduces JavaScript
semantics for exactly the constructs those patterns use: character classes,
greedy star over a class, lazy plus over a class, alternation (first
alternative preferred), named capture groups, and unanchored leftmost search.
Character classes are modelled over ASCII: JavaScript's `\s` additionally
matches some Unicode space characters and `.` additionally excludes
` / `; none of the claims concern those code points.

Exceptions are modelled with `Except JsError`:
`typeError` corresponds to the TypeError raised when JavaScript reads a
property of `undefined` (as in `unQuotedValue.trim()` when `unQuotedValue`
did not participate in the match), `missingEnvVars` to the
`MissingEnvVarsError` class, and `readFailure` to any other error coming out
of the file-read collaborator.

File reads (`Deno.readFileSync` / `Deno.readFile`) and the process
environment (`Deno.env`) are modelled by a `SysState` record: a function from
path to read outcome, an environment map, and a flag recording whether
`Deno.readFileSync` is a function (the Deno-Deploy guard in `parseFile`).
-/

set_option maxRecDepth 100000

namespace Dotenv

/-- Capture list of a regex match: group index paired with captured text. -/
abbrev Caps := List (Nat × List Char)

/-- Regexes are built from exactly the constructs appearing in
`RE_VariableStart` and `RE_KeyValue`: single-character classes, sequencing,
alternation (left alternative tried first, as in JavaScript), greedy star of a
class, lazy plus of a class, and capture groups. -/
inductive Regex where
  | eps : Regex
  | cls (p : Char → Bool) : Regex
  | seq (r1 r2 : Regex) : Regex
  | alt (r1 r2 : Regex) : Regex
  | starG (p : Char → Bool) : Regex
  | plusL (p : Char → Bool) : Regex
  | group (i : Nat) (r : Regex) : Regex

/-- Return the first `some` produced by `f` over the list, trying left to
right (the backtracking order of the engine). -/
def firstSome {α : Type} (f : Nat → Option α) : List Nat → Option α
  | [] => none
  | i :: is => (f i).orElse fun _ => firstSome f is

/-- Length of the maximal prefix of `s` whose characters satisfy `p`. -/
def runLen (p : Char → Bool) (s : List Char) : Nat :=
  (s.takeWhile p).length

/-- Greedy order for a star over a character class: longest first. -/
def countsDown (n : Nat) : List Nat :=
  (List.range (n + 1)).reverse

/-- Lazy order for a plus over a character class: shortest (one) first. -/
def countsUp (n : Nat) : List Nat :=
  (List.range n).map (· + 1)

/-- Backtracking matcher in continuation-passing style.  `reMatch r s caps k`
tries to match `r` against a prefix of `s`; on success the continuation
receives the remaining suffix and the updated captures.  Alternatives are
tried in JavaScript order: left alternative first, greedy star longest first,
lazy plus shortest first; captures record the most recent text consumed by
the group along the successful path. -/
def reMatch : Regex → List Char → Caps → (List Char → Caps → Option Caps) → Option Caps
  | .eps, s, caps, k => k s caps
  | .cls p, s, caps, k =>
      match s with
      | [] => none
      | c :: rest => if p c then k rest caps else none
  | .seq r1 r2, s, caps, k =>
      reMatch r1 s caps fun s' caps' => reMatch r2 s' caps' k
  | .alt r1 r2, s, caps, k =>
      (reMatch r1 s caps k).orElse fun _ => reMatch r2 s caps k
  | .starG p, s, caps, k =>
      firstSome (fun i => k (s.drop i) caps) (countsDown (runLen p s))
  | .plusL p, s, caps, k =>
      firstSome (fun i => k (s.drop i) caps) (countsUp (runLen p s))
  | .group i r, s, caps, k =>
      reMatch r s caps fun s' caps' =>
        k s' ((i, s.take (s.length - s'.length)) :: caps')

/-- Unanchored leftmost search, as performed by `String.prototype.match` for a
pattern without `^`: try each start position from the left, backtracking
within a position before advancing. -/
def reSearch (r : Regex) : List Char → Option Caps
  | [] => reMatch r [] [] fun _ caps => some caps
  | c :: rest =>
      (reMatch r (c :: rest) [] fun _ caps => some caps).orElse fun _ =>
        reSearch r rest

/-- ASCII model of JavaScript's `\s` character class. -/
def isJsWs (c : Char) : Bool :=
  c == ' ' || c == '\t' || c == '\n' || c == '\r' || c == '\x0b' || c == '\x0c'

/-- The class `[a-zA-Z_]` (identifier start in `RE_VariableStart`). -/
def isIdentStart (c : Char) : Bool :=
  (decide ('a' ≤ c) && decide (c ≤ 'z')) ||
  (decide ('A' ≤ c) && decide (c ≤ 'Z')) || c == '_'

/-- The class `[a-zA-Z_0-9 ]` (identifier continuation in `RE_VariableStart`,
note that it contains a space). -/
def isIdentCont (c : Char) : Bool :=
  isIdentStart c || (decide ('0' ≤ c) && decide (c ≤ '9')) || c == ' '

/-- The class `["']`: a single or a double quote. -/
def isQuoteChar (c : Char) : Bool :=
  c == '"' || c == '\''

/-- The class `(.|\n)`: in JavaScript `.` matches everything except line
terminators, so the union with `\n` excludes only `\r` over ASCII. -/
def isDotOrNl (c : Char) : Bool :=
  !(c == '\r')

/-- The class `[^#]`. -/
def isNotHash (c : Char) : Bool :=
  !(c == '#')

/-- The class `[^\s]` (used by the lazy key capture). -/
def isNotWs (c : Char) : Bool :=
  !(isJsWs c)

/-- Embedding of `RE_VariableStart = /^\s*[a-zA-Z_][a-zA-Z_0-9 ]*\s*=/`
(anchored; used only via `testVariableStart`, which matches from the start of
the line). -/
def RE_VariableStart : Regex :=
  .seq (.starG isJsWs)
    (.seq (.cls isIdentStart)
      (.seq (.starG isIdentCont)
        (.seq (.starG isJsWs) (.cls fun c => c == '='))))

/-- Embedding of
`RE_KeyValue =
/\s{0,}(?<key>[^\s]+?)\s{0,}=\ {0,}(["'](?<quotedValue>(.|\n){0,})["']|(?<unQuotedValue>[^#]{0,}))/`
with capture indices 1 = `key`, 2 = `quotedValue`, 3 = `unQuotedValue`. -/
def RE_KeyValue : Regex :=
  .seq (.starG isJsWs)
    (.seq (.group 1 (.plusL isNotWs))
      (.seq (.starG isJsWs)
        (.seq (.cls fun c => c == '=')
          (.seq (.starG fun c => c == ' ')
            (.alt
              (.seq (.cls isQuoteChar)
                (.seq (.group 2 (.starG isDotOrNl)) (.cls isQuoteChar)))
              (.group 3 (.starG isNotHash)))))))

/-- `RE_VariableStart.test(line)`: the pattern is anchored with `^`, so the
match is attempted at the start of the line only. -/
def testVariableStart (line : List Char) : Bool :=
  (reMatch RE_VariableStart line [] fun _ caps => some caps).isSome

/-- `line.match(RE_KeyValue)` and extraction of the named groups. -/
def matchKeyValue (line : List Char) : Option Caps :=
  reSearch RE_KeyValue line

/-- A configuration map (`DotenvConfig`): key/value pairs in insertion order. -/
abbrev ConfigMap := List (List Char × List Char)

/-- First-entry lookup, the model of JavaScript property access `m[k]` /
`Deno.env.get(k)` (returning `none` for `undefined`). -/
def getVal : ConfigMap → List Char → Option (List Char)
  | [], _ => none
  | kv :: rest, k => if kv.1 = k then some kv.2 else getVal rest k

/-- Model of JavaScript assignment `m[k] = v`: overwrite the first entry with
key `k` in place, or append a fresh entry. -/
def setKey : ConfigMap → List Char → List Char → ConfigMap
  | [], k, v => [(k, v)]
  | kv :: rest, k, v =>
      if kv.1 = k then (kv.1, v) :: rest else kv :: setKey rest k v

/-- `Object.keys`, in insertion order. -/
def keysOf (m : ConfigMap) : List (List Char) :=
  m.map Prod.fst

/-- Errors thrown by the embedded code: the TypeError raised when a property
of `undefined` is read, the `MissingEnvVarsError` class (carrying its
message), and any other failure propagated from the file-read collaborator. -/
inductive JsError where
  | typeError : JsError
  | missingEnvVars (message : List Char) : JsError
  | readFailure (tag : List Char) : JsError
deriving DecidableEq

deriving instance DecidableEq for Except

/-- Model of a JavaScript string split on `"\n"`: the result is never empty
(`"".split("\n")` is `[""]`), and a trailing newline yields a final empty
segment. -/
def splitOnNl : List Char → List (List Char)
  | [] => [[]]
  | '\n' :: rest => [] :: splitOnNl rest
  | c :: rest =>
      match splitOnNl rest with
      | [] => [[c]]
      | seg :: segs => (c :: seg) :: segs

/-- `expandNewlines` from the source: `str.replaceAll("\\n", "\n")`,
left-to-right and non-overlapping. -/
def expandNewlines : List Char → List Char
  | [] => []
  | '\\' :: 'n' :: rest => '\n' :: expandNewlines rest
  | c :: rest => c :: expandNewlines rest

/-- ASCII model of `String.prototype.trim`. -/
def jsTrim (s : List Char) : List Char :=
  ((s.dropWhile isJsWs).reverse.dropWhile isJsWs).reverse

/-- Body of the `for` loop of `parse` for one line: skip lines that fail
`RE_VariableStart`; otherwise destructure the named groups of the
`RE_KeyValue` match (a TypeError if the match or a needed group is
`undefined`, mirroring `line.match(..)?.groups` destructuring and
`unQuotedValue.trim()`) and assign.  An empty `quotedValue` is falsy in
JavaScript, so the code then evaluates `unQuotedValue.trim()`. -/
def parseLine (env : ConfigMap) (line : List Char) : Except JsError ConfigMap :=
  if testVariableStart line = false then .ok env
  else
    match matchKeyValue line with
    | none => .error .typeError
    | some caps =>
        match caps.lookup 1 with
        | none => .error .typeError
        | some newKey =>
            match caps.lookup 2 with
            | some qv =>
                if qv ≠ [] then .ok (setKey env newKey (expandNewlines qv))
                else
                  match caps.lookup 3 with
                  | some uv => .ok (setKey env newKey (jsTrim uv))
                  | none => .error .typeError
            | none =>
                match caps.lookup 3 with
                | some uv => .ok (setKey env newKey (jsTrim uv))
                | none => .error .typeError

/-- `parse` from the source: split the raw text on newlines and process each
line in order, starting from the empty map. -/
def parse (rawDotenv : List Char) : Except JsError ConfigMap :=
  (splitOnNl rawDotenv).foldlM parseLine []

/-- The `ConfigOptions` interface: every field optional.  A field holding
`none` models a field absent from the options object (an explicitly
`undefined` field behaves the same for every option the code inspects). -/
structure ConfigOptions where
  path : Option (List Char) := none
  «export» : Option Bool := none
  safe : Option Bool := none
  «example» : Option (List Char) := none
  allowEmptyValues : Option Bool := none
  defaults : Option (List Char) := none

/-- The options record after the spread `{ ...defaultConfigOptions, ...options }`. -/
structure ResolvedOptions where
  path : List Char
  «export» : Bool
  safe : Bool
  «example» : List Char
  allowEmptyValues : Bool
  defaults : List Char

/-- `defaultConfigOptions` from the source. -/
def defaultConfigOptions : ResolvedOptions :=
  { path := ".env".toList
    «export» := false
    safe := false
    «example» := ".env.example".toList
    allowEmptyValues := false
    defaults := ".env.defaults".toList }

/-- The spread `{ ...defaultConfigOptions, ...options }`: a present field of
`options` wins, an absent one falls back to the default. -/
def resolveOptions (options : ConfigOptions) : ResolvedOptions :=
  { path := options.path.getD defaultConfigOptions.path
    «export» := options.«export».getD defaultConfigOptions.«export»
    safe := options.safe.getD defaultConfigOptions.safe
    «example» := options.«example».getD defaultConfigOptions.«example»
    allowEmptyValues := options.allowEmptyValues.getD defaultConfigOptions.allowEmptyValues
    defaults := options.defaults.getD defaultConfigOptions.defaults }

/-- Outcome of asking the file-read collaborator for a path: file content, a
`Deno.errors.NotFound`, or any other read failure. -/
inductive ReadResult where
  | content (text : List Char) : ReadResult
  | notFound : ReadResult
  | failure (e : JsError) : ReadResult

/-- The ambient system state: the file system, the process environment
(`Deno.env`), and whether `Deno.readFileSync` is a function (it is not on
Deno Deploy, the case guarded in `parseFile`). -/
structure SysState where
  fs : List Char → ReadResult
  env : ConfigMap
  readFileSyncAvailable : Bool

/-- `parseFile` from the source (synchronous): return `{}` when
`Deno.readFileSync` is not a function, catch `NotFound` as `{}`, and let any
other error (including errors thrown by `parse`) propagate. -/
def parseFile (st : SysState) (filepath : List Char) : Except JsError ConfigMap :=
  if st.readFileSyncAvailable = false then .ok []
  else
    match st.fs filepath with
    | .content text => parse text
    | .notFound => .ok []
    | .failure e => .error e

/-- `parseFileAsync` from the source: identical to `parseFile` except that it
has no guard on the availability of the synchronous read primitive. -/
def parseFileAsync (st : SysState) (filepath : List Char) : Except JsError ConfigMap :=
  match st.fs filepath with
  | .content text => parse text
  | .notFound => .ok []
  | .failure e => .error e

/-- Modelled from the spec: `removeEmptyValues` is imported from
`src/dotenv/util.ts`, which is not among the given source files.  Per the
spec, when `allowEmptyValues` is false "a key counts as present only if its
value is non-empty", so the function drops every entry whose value is the
empty string. -/
def removeEmptyValues (m : ConfigMap) : ConfigMap :=
  m.filter fun kv => kv.2 ≠ []

/-- Modelled from the spec: `difference` is imported from
`src/dotenv/util.ts`, which is not among the given source files.  Per the
spec, the missing set is "the set of keys in the example map that are not
present" and the safe-mode error "carries the sorted list of missing key
names", so the difference is modelled as the lexicographically sorted list of
elements of the first list that do not occur in the second. -/
def difference (arrA arrB : List (List Char)) : List (List Char) :=
  List.insertionSort (· ≤ ·) (arrA.filter fun a => !arrB.contains a)

/-- `Object.assign(target, source)` for one source: copy the entries of
`source` into `target` in order; a later value for an existing key overwrites
it in place.  `Object.assign({}, a, b)` is `objectAssign (objectAssign [] a) b`,
in which the entries of `b` win on every conflicting key. -/
def objectAssign (target source : ConfigMap) : ConfigMap :=
  source.foldl (fun m kv => setKey m kv.1 kv.2) target

/-- The `missing` list computed by `assertSafe`: keys of the example map not
among the keys of the environment-overlaid configuration, where the overlay
is `Object.assign({}, currentEnv, conf)` (so `conf` wins on conflicts) and,
unless `allowEmptyValues` is set, entries with empty values are first
removed. -/
def missingKeys (env conf confExample : ConfigMap) (allowEmptyValues : Bool) :
    List (List Char) :=
  let confWithEnv := objectAssign (objectAssign [] env) conf
  difference (keysOf confExample)
    (keysOf (if allowEmptyValues then confWithEnv else removeEmptyValues confWithEnv))

/-- The message of the thrown `MissingEnvVarsError`, built exactly as in
`assertSafe`: the missing keys joined with `", "`, a remediation hint, and —
only when `allowEmptyValues` is false — a note about that option (the
`errorMessages.filter(Boolean)` of the source drops the `false` entry). -/
def missingMessage (missing : List (List Char)) (allowEmptyValues : Bool) :
    List Char :=
  List.intercalate "\n\n".toList
    ([("The following variables were defined in the example file but are not present in the environment:\n  ".toList
        ++ List.intercalate ", ".toList missing),
      "Make sure to add them to your env file.".toList]
     ++ (if allowEmptyValues then []
         else ["If you expect any of these variables to be empty, you can set the allowEmptyValues option to true.".toList]))

/-- `assertSafe` from the source: throw a `MissingEnvVarsError` when the
missing list is non-empty.  The process environment snapshot
(`Deno.env.toObject()`) is passed in as `env`. -/
def assertSafe (env conf confExample : ConfigMap) (allowEmptyValues : Bool) :
    Except JsError Unit :=
  let missing := missingKeys env conf confExample allowEmptyValues
  if missing.length > 0 then
    .error (.missingEnvVars (missingMessage missing allowEmptyValues))
  else .ok ()

/-- The defaults-merge loop of `configSync`/`config`:
`for key in confDefaults: if !(key in conf) then conf[key] = confDefaults[key]`. -/
def mergeDefaults (conf confDefaults : ConfigMap) : ConfigMap :=
  confDefaults.foldl
    (fun c kv => if (getVal c kv.1).isSome then c else setKey c kv.1 kv.2) conf

/-- The export loop of `configSync`/`config`: for each key of the merged map,
set it in the process environment only when `Deno.env.get` returns
`undefined` for it. -/
def exportEnvMap (env conf : ConfigMap) : ConfigMap :=
  conf.foldl
    (fun e kv => if (getVal e kv.1).isSome then e else setKey e kv.1 kv.2) env

/-- `configSync` from the source.  The returned pair is the JavaScript return
value (or thrown error) together with the process environment after the call;
the environment is only touched by the export loop, which runs after all
reads, the defaults merge and safe-mode validation have succeeded. -/
def configSync (st : SysState) (options : ConfigOptions) :
    Except JsError ConfigMap × ConfigMap :=
  let o := resolveOptions options
  match parseFile st o.path with
  | .error e => (.error e, st.env)
  | .ok conf0 =>
      match (if o.defaults ≠ [] then
               (parseFile st o.defaults).map (mergeDefaults conf0)
             else .ok conf0) with
      | .error e => (.error e, st.env)
      | .ok conf =>
          match (if o.safe then
                   (parseFile st o.«example»).bind fun confExample =>
                     assertSafe st.env conf confExample o.allowEmptyValues
                 else .ok ()) with
          | .error e => (.error e, st.env)
          | .ok _ =>
              (.ok conf, if o.«export» then exportEnvMap st.env conf else st.env)

/-- `config` from the source: same steps as `configSync`, reading through
`parseFileAsync` (which lacks the Deno-Deploy guard). -/
def config (st : SysState) (options : ConfigOptions) :
    Except JsError ConfigMap × ConfigMap :=
  let o := resolveOptions options
  match parseFileAsync st o.path with
  | .error e => (.error e, st.env)
  | .ok conf0 =>
      match (if o.defaults ≠ [] then
               (parseFileAsync st o.defaults).map (mergeDefaults conf0)
             else .ok conf0) with
      | .error e => (.error e, st.env)
      | .ok conf =>
          match (if o.safe then
                   (parseFileAsync st o.«example»).bind fun confExample =>
                     assertSafe st.env conf confExample o.allowEmptyValues
                 else .ok ()) with
          | .error e => (.error e, st.env)
          | .ok _ =>
              (.ok conf, if o.«export» then exportEnvMap st.env conf else st.env)

/-- The read/merge/validate pipeline shared by `configSync` and `config`,
abstracted over the reader.  `configSync` uses `parseFile st`, `config` uses
`parseFileAsync st`; the environment is only consulted through the snapshot
passed to `assertSafe`. -/
def loadWith (read : List Char → Except JsError ConfigMap) (env : ConfigMap)
    (o : ResolvedOptions) : Except JsError ConfigMap :=
  match read o.path with
  | .error e => .error e
  | .ok conf0 =>
      match (if o.defaults ≠ [] then
               (read o.defaults).map (mergeDefaults conf0)
             else .ok conf0) with
      | .error e => .error e
      | .ok conf =>
          match (if o.safe then
                   (read o.«example»).bind fun confExample =>
                     assertSafe env conf confExample o.allowEmptyValues
                 else .ok ()) with
          | .error e => .error e
          | .ok _ => .ok conf

/-- File system for the defaults-merge scenario of the spec: the primary
source defines `A=1`, the defaults source `d` defines `A=2` and `B=3`. -/
def fsMerge : List Char → ReadResult := fun p =>
  if p = ".env".toList then .content "A=1".toList
  else if p = "d".toList then .content "A=2\nB=3".toList
  else .notFound

/-- State for the defaults-merge scenario. -/
def stMerge : SysState := ⟨fsMerge, [], true⟩

/-- File system for the safe-mode overlay scenario: the primary source binds
`REQUIRED` to the empty string, the example source lists `REQUIRED`. -/
def fsOverlay : List Char → ReadResult := fun p =>
  if p = ".env".toList then .content "REQUIRED=".toList
  else if p = ".env.example".toList then .content "REQUIRED=x".toList
  else .notFound

/-- State for the safe-mode overlay scenario: the process environment already
holds `REQUIRED=x`, a non-empty value. -/
def stOverlay : SysState := ⟨fsOverlay, [("REQUIRED".toList, "x".toList)], true⟩

/-- Deno-Deploy state: `Deno.readFileSync` is not a function, and the primary
source exists with content `A=1`. -/
def stDeploy : SysState :=
  ⟨fun p => if p = ".env".toList then .content "A=1".toList else .notFound,
   [], false⟩

/-- State with the same file system as `stDeploy` but with the synchronous
read primitive available. -/
def stAvail : SysState :=
  ⟨fun p => if p = ".env".toList then .content "A=1".toList else .notFound,
   [], true⟩

/-- State whose example source requires `REQ` while no source and no
environment entry provides it. -/
def stSafeW : SysState :=
  ⟨fun p => if p = ".env.example".toList then .content "REQ=x".toList
            else .notFound,
   [], true⟩

/-- State for the export scenario: the primary source defines `A=1` and
`B=2`, and the process environment already holds `A=zz`. -/
def stExport : SysState :=
  ⟨fun p => if p = ".env".toList then .content "A=1\nB=2".toList else .notFound,
   [("A".toList, "zz".toList)], true⟩

section Lemmas

/-- Looking a key up after a JavaScript assignment: the assigned key now maps
to the assigned value, every other key is unaffected. -/
lemma getVal_setKey (m : ConfigMap) (k v k' : List Char) :
    getVal (setKey m k v) k' = if k = k' then some v else getVal m k' := by
  induction m with
  | nil => simp [setKey, getVal]
  | cons kv rest ih =>
      simp only [setKey, getVal]
      by_cases h1 : kv.1 = k
      · simp only [if_pos h1, getVal, ← h1]
        by_cases h2 : kv.1 = k' <;> simp_all
      · simp only [if_neg h1, getVal, ih]
        by_cases h2 : kv.1 = k' <;> by_cases h3 : k = k' <;> simp_all

/-- Assigning a key that is absent appends the new entry at the end. -/
lemma setKey_absent (m : ConfigMap) (k v : List Char) (h : getVal m k = none) :
    setKey m k v = m ++ [(k, v)] := by
  induction m with
  | nil => simp [setKey]
  | cons kv rest ih =>
      simp only [getVal] at h
      by_cases h1 : kv.1 = k
      · rw [if_pos h1] at h; cases h
      · rw [if_neg h1] at h
        simp [setKey, h1, ih h]

/-- One step of the set-if-absent fold of `exportEnvMap`. -/
lemma exportEnvMap_cons (env : ConfigMap) (kv : List Char × List Char)
    (rest : ConfigMap) :
    exportEnvMap env (kv :: rest) =
      exportEnvMap (if (getVal env kv.1).isSome then env
                    else setKey env kv.1 kv.2) rest := rfl

/-- Lookup after the export loop: an existing environment entry always wins,
and a key absent from the environment receives the merged map's value for it
(or stays absent). -/
lemma getVal_exportEnvMap (conf env : ConfigMap) (k : List Char) :
    getVal (exportEnvMap env conf) k =
      (getVal env k).orElse fun _ => getVal conf k := by
  induction conf generalizing env with
  | nil => cases h : getVal env k <;> simp [exportEnvMap, Option.orElse, h, getVal]
  | cons kv rest ih =>
      rw [exportEnvMap_cons, ih]
      by_cases h1 : (getVal env kv.1).isSome
      · rw [if_pos h1]
        by_cases h2 : kv.1 = k
        · subst h2
          obtain ⟨w, hw⟩ := Option.isSome_iff_exists.mp h1
          simp [getVal, hw, Option.orElse]
        · simp [getVal, h2]
      · rw [if_neg h1]
        have h1' : getVal env kv.1 = none := Option.not_isSome_iff_eq_none.mp h1
        by_cases h2 : kv.1 = k
        · subst h2
          simp [getVal_setKey, h1', getVal, Option.orElse]
        · simp [getVal_setKey, h2, getVal, Option.orElse]

/-- The defaults-merge loop is the same set-if-absent fold as the export
loop. -/
lemma mergeDefaults_eq_exportEnvMap (conf confDefaults : ConfigMap) :
    mergeDefaults conf confDefaults = exportEnvMap conf confDefaults := rfl

/-- Lookup after the defaults merge: the primary source wins, defaults fill
only absent keys. -/
lemma getVal_mergeDefaults (conf confDefaults : ConfigMap) (k : List Char) :
    getVal (mergeDefaults conf confDefaults) k =
      (getVal conf k).orElse fun _ => getVal confDefaults k := by
  rw [mergeDefaults_eq_exportEnvMap]
  exact getVal_exportEnvMap confDefaults conf k

/-- The export loop only appends fresh entries: the original environment is a
prefix of the resulting one, so no existing entry is removed or modified. -/
lemma exportEnvMap_prefix (conf env : ConfigMap) : env <+: exportEnvMap env conf := by
  induction conf generalizing env with
  | nil => exact List.prefix_refl env
  | cons kv rest ih =>
      rw [exportEnvMap_cons]
      by_cases h1 : (getVal env kv.1).isSome
      · rw [if_pos h1]; exact ih env
      · rw [if_neg h1]
        refine List.IsPrefix.trans ?_ (ih _)
        rw [setKey_absent _ _ _ (Option.not_isSome_iff_eq_none.mp h1)]
        exact ⟨[(kv.1, kv.2)], rfl⟩

/-- `configSync` in terms of the shared pipeline: the returned value is
`loadWith` over the synchronous reader, and the environment is touched only
when the pipeline succeeded and `export` was requested. -/
lemma configSync_eq (st : SysState) (options : ConfigOptions) :
    configSync st options =
      (loadWith (parseFile st) st.env (resolveOptions options),
       match loadWith (parseFile st) st.env (resolveOptions options) with
       | .error _ => st.env
       | .ok conf =>
           if (resolveOptions options).«export» then exportEnvMap st.env conf
           else st.env) := by
  simp only [configSync, loadWith]
  split
  · rfl
  · split
    · rfl
    · split
      · rfl
      · rfl

/-- `config` in terms of the shared pipeline, over the asynchronous reader. -/
lemma config_eq (st : SysState) (options : ConfigOptions) :
    config st options =
      (loadWith (parseFileAsync st) st.env (resolveOptions options),
       match loadWith (parseFileAsync st) st.env (resolveOptions options) with
       | .error _ => st.env
       | .ok conf =>
           if (resolveOptions options).«export» then exportEnvMap st.env conf
           else st.env) := by
  simp only [config, loadWith]
  split
  · rfl
  · split
    · rfl
    · split
      · rfl
      · rfl

/-- When `Deno.readFileSync` is available the guard in `parseFile` is dead
and the two readers agree. -/
lemma parseFile_eq_async (st : SysState) (h : st.readFileSyncAvailable = true)
    (p : List Char) : parseFile st p = parseFileAsync st p := by
  simp [parseFile, parseFileAsync, h]

/-- The pipeline under safe mode, when all three reads succeed: it reduces to
the missing-keys test over the merged map. -/
lemma loadWith_safe (read : List Char → Except JsError ConfigMap)
    (env : ConfigMap) (o : ResolvedOptions) (c1 cd ce : ConfigMap)
    (hsafe : o.safe = true)
    (hp : read o.path = .ok c1) (hd : read o.defaults = .ok cd)
    (he : read o.«example» = .ok ce) :
    loadWith read env o =
      (if (missingKeys env (if o.defaults ≠ [] then mergeDefaults c1 cd else c1)
              ce o.allowEmptyValues).length > 0 then
         .error (.missingEnvVars
           (missingMessage
             (missingKeys env (if o.defaults ≠ [] then mergeDefaults c1 cd else c1)
                ce o.allowEmptyValues)
             o.allowEmptyValues))
       else
         .ok (if o.defaults ≠ [] then mergeDefaults c1 cd else c1)) := by
  simp only [loadWith, hp, hsafe, he, if_true]
  by_cases hdef : o.defaults ≠ []
  · simp only [if_pos hdef, hd, Except.map, Except.bind, assertSafe]
    by_cases hm :
        (missingKeys env (mergeDefaults c1 cd) ce o.allowEmptyValues).length > 0
    · simp [hm]
    · simp [hm]
  · simp only [if_neg hdef, Except.bind, assertSafe]
    by_cases hm : (missingKeys env c1 ce o.allowEmptyValues).length > 0
    · simp [hm]
    · simp [hm]

/-- The missing list is produced by an insertion sort, hence sorted. -/
lemma difference_sorted (arrA arrB : List (List Char)) :
    List.Sorted (· ≤ ·) (difference arrA arrB) :=
  List.sorted_insertionSort _ _

/-- The message of every `MissingEnvVarsError` contains the remediation
hint. -/
lemma hint_infix (missing : List (List Char)) (aev : Bool) :
    "Make sure to add them to your env file.".toList <:+:
      missingMessage missing aev := by
  cases aev
  · refine ⟨("The following variables were defined in the example file but are not present in the environment:\n  ".toList
        ++ List.intercalate ", ".toList missing) ++ "\n\n".toList,
      "\n\n".toList ++ "If you expect any of these variables to be empty, you can set the allowEmptyValues option to true.".toList, ?_⟩
    simp [missingMessage, List.intercalate, List.intersperse, List.flatten,
      List.append_assoc]
  · refine ⟨("The following variables were defined in the example file but are not present in the environment:\n  ".toList
        ++ List.intercalate ", ".toList missing) ++ "\n\n".toList, [], ?_⟩
    simp [missingMessage, List.intercalate, List.intersperse, List.flatten,
      List.append_assoc]

end Lemmas

/-- C1 (counterexample): the claim states that safe-mode presence is checked
against the union of the process environment and the merged map **with
process-environment values winning on every conflicting key**.  In
`stOverlay` the process environment holds `REQUIRED=x` (non-empty), the
primary source binds `REQUIRED` to the empty string, and the example source
lists `REQUIRED`; under the claimed overlay the key would be present with the
non-empty value `x` and no missing-keys error could mention it, yet
`configSync` throws `MissingEnvVarsError` listing `REQUIRED`: in
`Object.assign({}, currentEnv, conf)` the merged map wins, so the empty value
shadows the environment's. -/
theorem C1_counterexample :
    getVal stOverlay.env "REQUIRED".toList = some "x".toList ∧
    (configSync stOverlay { safe := some true }).1 =
      .error (.missingEnvVars (missingMessage ["REQUIRED".toList] false)) := by
  constructor
  · decide
  · decide

/-- C1 (amended): for safe-mode validation the presence check is performed
against the environment-overlaid configuration, defined as the union of the
process environment and the merged map in which the **merged map's** values
win on every conflicting key (`Object.assign({}, currentEnv, conf)`); the
overlay is computed whether or not export was requested.  Conjuncts: the
validation outcome depends only on that overlay; on a conflict the merged
map's (empty) value wins; a key supplied only by the environment still counts
as present; and the returned value of `configSync`/`config` is independent of
the `export` option. -/
theorem C1_theorem :
    (∀ (env conf env' conf' confExample : ConfigMap) (aev : Bool),
        objectAssign (objectAssign [] env) conf =
          objectAssign (objectAssign [] env') conf' →
        assertSafe env conf confExample aev =
          assertSafe env' conf' confExample aev) ∧
    (assertSafe [("K".toList, "x".toList)] [("K".toList, [])]
        [("K".toList, "y".toList)] false =
      .error (.missingEnvVars (missingMessage ["K".toList] false))) ∧
    (assertSafe [("J".toList, "x".toList)] [] [("J".toList, "y".toList)] false
      = .ok ()) ∧
    (∀ (st : SysState) (options : ConfigOptions) (b b' : Bool),
        (configSync st { options with «export» := some b }).1 =
          (configSync st { options with «export» := some b' }).1 ∧
        (config st { options with «export» := some b }).1 =
          (config st { options with «export» := some b' }).1) := by
  refine ⟨?_, by decide, by decide, ?_⟩
  · intro env conf env' conf' confExample aev h
    simp only [assertSafe, missingKeys]
    rw [h]
  · intro st options b b'
    constructor
    · rw [configSync_eq st { options with «export» := some b },
          configSync_eq st { options with «export» := some b' }]
      rfl
    · rw [config_eq st { options with «export» := some b },
          config_eq st { options with «export» := some b' }]
      rfl

/-- C1 (witness): the overlay-dependence conjunct applied at a concrete
input: an entry supplied by the environment and the same entry supplied by
the merged map produce the same overlay, hence the same validation result. -/
theorem C1_witness :
    objectAssign (objectAssign [] [("A".toList, "1".toList)]) [] =
      objectAssign (objectAssign [] []) [("A".toList, "1".toList)] ∧
    assertSafe [("A".toList, "1".toList)] [] [("A".toList, "x".toList)] false =
      assertSafe [] [("A".toList, "1".toList)] [("A".toList, "x".toList)] false :=
  ⟨by decide,
   C1_theorem.1 [("A".toList, "1".toList)] [] [] [("A".toList, "1".toList)]
     [("A".toList, "x".toList)] false (by decide)⟩

/-- C2: with `safe` true and all three reads succeeding, `configSync` throws
`MissingEnvVarsError` exactly when the missing list is non-empty — where the
missing list consists of the example keys not present in the
environment-overlaid configuration, presence requiring a non-empty value
unless `allowEmptyValues` is set; the thrown error carries the sorted missing
list (joined into its message) together with a remediation hint, and its
constructor is distinct from those of parse and read errors. -/
theorem C2_theorem (st : SysState) (options : ConfigOptions)
    (c1 cd ce conf : ConfigMap) (M : List (List Char))
    (hsafe : (resolveOptions options).safe = true)
    (hp : parseFile st (resolveOptions options).path = .ok c1)
    (hd : parseFile st (resolveOptions options).defaults = .ok cd)
    (he : parseFile st (resolveOptions options).«example» = .ok ce)
    (hconf : conf =
      if (resolveOptions options).defaults ≠ [] then mergeDefaults c1 cd else c1)
    (hM : M = missingKeys st.env conf ce (resolveOptions options).allowEmptyValues) :
    (((configSync st options).1 =
        .error (.missingEnvVars
          (missingMessage M (resolveOptions options).allowEmptyValues)))
      ↔ M ≠ []) ∧
    List.Sorted (· ≤ ·) M ∧
    ("Make sure to add them to your env file.".toList <:+:
      missingMessage M (resolveOptions options).allowEmptyValues) ∧
    (∀ m t : List Char,
        JsError.missingEnvVars m ≠ JsError.typeError ∧
        JsError.missingEnvVars m ≠ JsError.readFailure t) := by
  subst hconf
  subst hM
  have hfst : (configSync st options).1 =
      loadWith (parseFile st) st.env (resolveOptions options) := by
    rw [configSync_eq]
  rw [hfst, loadWith_safe (parseFile st) st.env (resolveOptions options)
    c1 cd ce hsafe hp hd he]
  refine ⟨?_, difference_sorted _ _, hint_infix _ _, by simp⟩
  by_cases hm :
      (missingKeys st.env
        (if (resolveOptions options).defaults ≠ [] then mergeDefaults c1 cd
         else c1) ce (resolveOptions options).allowEmptyValues).length > 0
  · rw [if_pos hm]
    exact ⟨fun _ => List.length_pos.mp hm, fun _ => rfl⟩
  · rw [if_neg hm]
    have hnil := List.length_eq_zero.mp (Nat.eq_zero_of_not_pos hm)
    constructor
    · intro h
      exact absurd h (by simp)
    · intro hne
      exact absurd hnil hne

/-- C2 (witness): in `stSafeW` the example source requires `REQ`, nothing
provides it, and the theorem's hypotheses all hold concretely. -/
theorem C2_witness :
    (((configSync stSafeW { safe := some true }).1 =
        .error (.missingEnvVars (missingMessage ["REQ".toList] false)))
      ↔ ["REQ".toList] ≠ ([] : List (List Char))) ∧
    List.Sorted (· ≤ ·) [("REQ".toList : List Char)] ∧
    ("Make sure to add them to your env file.".toList <:+:
      missingMessage ["REQ".toList] false) ∧
    (∀ m t : List Char,
        JsError.missingEnvVars m ≠ JsError.typeError ∧
        JsError.missingEnvVars m ≠ JsError.readFailure t) :=
  C2_theorem stSafeW { safe := some true } [] []
    [("REQ".toList, "x".toList)] [] ["REQ".toList]
    (by decide) (by decide) (by decide) (by decide) (by decide) (by decide)

/-- C3: a key already defined in the process environment before a call of
`configSync` or `config` with `export` true keeps its value: only absent keys
are ever set. -/
theorem C3_theorem (st : SysState) (options : ConfigOptions)
    (hexp : (resolveOptions options).«export» = true)
    (k v : List Char) (hk : getVal st.env k = some v) :
    getVal (configSync st options).2 k = some v ∧
    getVal (config st options).2 k = some v := by
  constructor
  · rw [configSync_eq]
    dsimp only
    cases loadWith (parseFile st) st.env (resolveOptions options) with
    | error e => exact hk
    | ok conf =>
        rw [hexp]
        simp [getVal_exportEnvMap, hk, Option.orElse]
  · rw [config_eq]
    dsimp only
    cases loadWith (parseFileAsync st) st.env (resolveOptions options) with
    | error e => exact hk
    | ok conf =>
        rw [hexp]
        simp [getVal_exportEnvMap, hk, Option.orElse]

/-- C3 (witness): in `stExport` the environment holds `A=zz` while the
primary source defines `A=1`; after an exporting call the environment still
holds `A=zz`. -/
theorem C3_witness :
    getVal (configSync stExport { «export» := some true }).2 "A".toList =
      some "zz".toList ∧
    getVal (config stExport { «export» := some true }).2 "A".toList =
      some "zz".toList :=
  C3_theorem stExport { «export» := some true } (by decide)
    "A".toList "zz".toList (by decide)

/-- C4: the defaults merge copies into the result exactly the defaults
entries whose keys are absent from the primary map and changes no key present
in the primary map (lookup in the merged map is lookup in the primary map,
falling back to the defaults map); concretely, with a primary source
defining `A=1` and a defaults source defining `A=2` and `B=3` the returned
map is `{A: "1", B: "3"}`. -/
theorem C4_theorem :
    (∀ (conf confDefaults : ConfigMap) (k : List Char),
        getVal (mergeDefaults conf confDefaults) k =
          (getVal conf k).orElse fun _ => getVal confDefaults k) ∧
    (configSync stMerge { defaults := some "d".toList }).1 =
      .ok [("A".toList, "1".toList), ("B".toList, "3".toList)] :=
  ⟨getVal_mergeDefaults, by decide⟩

/-- C5 (counterexample): the claim states that a value is treated as quoted
only when enclosed in *matching* quotes and that quoted content may span
multiple lines.  Both fail: `A='a\nb"` (opening single quote, closing double
quote) is nevertheless treated as quoted — the delimiters are stripped and
the escaped newline is expanded — and `A="x<newline>y"` is split at the
newline before matching, binding `A` to `"x` instead of a two-line quoted
content. -/
theorem C5_counterexample :
    parse "A='a\\nb\"".toList = .ok [("A".toList, "a\nb".toList)] ∧
    parse "A=\"x\ny\"".toList = .ok [("A".toList, "\"x".toList)] := by
  constructor
  · decide
  · decide

/-- C5 (amended): a value is treated as quoted when, after the `=` and any
spaces, it begins with a single or double quote and another quote character
of either kind occurs later on the same line; the opening and closing
delimiters need not match (the closing delimiter is the last quote character
on the line), the content in between may contain further quote characters,
and quoted content never spans multiple lines of the input, because the input
is split on newlines before the pattern is applied. -/
theorem C5_theorem :
    parse "B=\"ok\"".toList = .ok [("B".toList, "ok".toList)] ∧
    parse "B=\"a'b\"".toList = .ok [("B".toList, "a'b".toList)] ∧
    parse "B='p\\nq\"".toList = .ok [("B".toList, "p\nq".toList)] ∧
    parse "B=\"u\nv\"".toList = .ok [("B".toList, "\"u".toList)] ∧
    parse "B=\"w".toList = .ok [("B".toList, "\"w".toList)] := by
  refine ⟨?_, ?_, ?_, ?_, ?_⟩ <;> decide

/-- C6: the claim states that every line assigning an empty value, such as
`KEY=` or `KEY=""`, binds the key to the empty string without error.  The
code satisfies this for `KEY=` but throws a TypeError for `KEY=""` and
`KEY=''`: the empty captured `quotedValue` is falsy, so the code evaluates
`unQuotedValue.trim()` with `unQuotedValue` undefined. -/
theorem C6_theorem :
    parse "KEY=".toList = .ok [("KEY".toList, [])] ∧
    parse "KEY=\"\"".toList = .error .typeError ∧
    parse "KEY=''".toList = .error .typeError := by
  refine ⟨?_, ?_, ?_⟩ <;> decide

/-- C7: parsing `FOO=bar\nBAZ="qux\nquux"\n# comment\nBADLINE` yields exactly
`{FOO: "bar", BAZ: "qux<newline>quux"}`; every line that fails the
variable-start test is skipped silently (never an error); escaped newlines in
quoted values are expanded; unquoted values are trimmed. -/
theorem C7_theorem :
    parse "FOO=bar\nBAZ=\"qux\\nquux\"\n# comment\nBADLINE".toList =
      .ok [("FOO".toList, "bar".toList), ("BAZ".toList, "qux\nquux".toList)] ∧
    (∀ (env : ConfigMap) (line : List Char),
        testVariableStart line = false → parseLine env line = .ok env) ∧
    parse "PAD=  padded value  ".toList =
      .ok [("PAD".toList, "padded value".toList)] := by
  refine ⟨by decide, ?_, by decide⟩
  intro env line h
  simp [parseLine, h]

/-- C7 (witness): a comment line fails the variable-start test and is
skipped, leaving the accumulated map unchanged. -/
theorem C7_witness :
    testVariableStart "# just a comment".toList = false ∧
    parseLine [] "# just a comment".toList = .ok [] :=
  ⟨by decide, C7_theorem.2.1 [] "# just a comment".toList (by decide)⟩

/-- C8: a missing source file is treated as the empty map by both readers and
`configSync({})`/`config({})` with no `.env` present return `{}` without
throwing and without touching the environment; a read failure other than
not-found propagates unchanged to the caller. -/
theorem C8_theorem :
    (∀ (env : ConfigMap) (avail : Bool) (p : List Char),
        parseFile ⟨fun _ => .notFound, env, avail⟩ p = .ok [] ∧
        parseFileAsync ⟨fun _ => .notFound, env, avail⟩ p = .ok []) ∧
    (∀ env : ConfigMap,
        configSync ⟨fun _ => .notFound, env, true⟩ {} = (.ok [], env) ∧
        config ⟨fun _ => .notFound, env, true⟩ {} = (.ok [], env)) ∧
    (∀ (env : ConfigMap) (e : JsError),
        (configSync ⟨fun p => if p = ".env".toList then .failure e
                              else .notFound, env, true⟩ {}).1 = .error e ∧
        (config ⟨fun p => if p = ".env".toList then .failure e
                          else .notFound, env, true⟩ {}).1 = .error e) := by
  refine ⟨?_, ?_, ?_⟩
  · intro env avail p
    cases avail <;> exact ⟨rfl, rfl⟩
  · intro env
    exact ⟨rfl, rfl⟩
  · intro env e
    exact ⟨rfl, rfl⟩

/-- C9 (counterexample): the claim states that `configSync` and `config` are
functionally identical for every assignment of outcomes to the sources.  On
Deno Deploy (`Deno.readFileSync` is not a function, `stDeploy`) with a
primary source containing `A=1`, `configSync` returns the empty map (every
read is short-circuited to `{}`) while `config` returns `{A: "1"}`. -/
theorem C9_counterexample :
    configSync stDeploy {} ≠ config stDeploy {} ∧
    configSync stDeploy {} = (.ok [], []) ∧
    config stDeploy {} = (.ok [("A".toList, "1".toList)], []) := by
  refine ⟨?_, ?_, ?_⟩ <;> decide

/-- C9 (amended): whenever `Deno.readFileSync` is available, `configSync` and
`config` agree on the returned map, the error and the resulting process
environment for every options value and every assignment of outcomes to the
sources; they differ only in the Deno-Deploy fallback of `parseFile`. -/
theorem C9_theorem (st : SysState) (options : ConfigOptions)
    (h : st.readFileSyncAvailable = true) :
    configSync st options = config st options := by
  have hf : parseFile st = parseFileAsync st := funext (parseFile_eq_async st h)
  rw [configSync_eq, config_eq, hf]

/-- C9 (witness): with the synchronous reader available, the two entry points
agree on the `stAvail` scenario. -/
theorem C9_witness : configSync stAvail {} = config stAvail {} :=
  C9_theorem stAvail {} rfl

/-- C10: with `export` false (or on any error) the process environment is
returned untouched; with `export` true and a successful load the only effect
is the set-if-absent export of the merged map: lookups are unchanged for
every key the environment already has, keys absent from both maps stay
absent, and the original environment is a prefix of the new one, so no entry
is removed or modified. -/
theorem C10_theorem (st : SysState) (options : ConfigOptions) :
    ((configSync st options).2 =
      match (resolveOptions options).«export», (configSync st options).1 with
      | false, _ => st.env
      | true, .error _ => st.env
      | true, .ok conf => exportEnvMap st.env conf) ∧
    ((config st options).2 =
      match (resolveOptions options).«export», (config st options).1 with
      | false, _ => st.env
      | true, .error _ => st.env
      | true, .ok conf => exportEnvMap st.env conf) ∧
    (∀ (env conf : ConfigMap) (k : List Char),
        getVal (exportEnvMap env conf) k =
          (getVal env k).orElse fun _ => getVal conf k) ∧
    (∀ env conf : ConfigMap, env <+: exportEnvMap env conf) := by
  refine ⟨?_, ?_, fun env conf k => getVal_exportEnvMap conf env k,
    fun env conf => exportEnvMap_prefix conf env⟩
  · rw [configSync_eq]
    dsimp only
    cases loadWith (parseFile st) st.env (resolveOptions options) with
    | error e => cases hexp : (resolveOptions options).«export» <;> rfl
    | ok conf => cases hexp : (resolveOptions options).«export» <;> rfl
  · rw [config_eq]
    dsimp only
    cases loadWith (parseFileAsync st) st.env (resolveOptions options) with
    | error e => cases hexp : (resolveOptions options).«export» <;> rfl
    | ok conf => cases hexp : (resolveOptions options).«export» <;> rfl

end Dotenv
